import Mathlib

/-!
Shallow embedding of the free-agent ranking, heatmap coloring and sortable
table view-model of the fantasy-optimizer client (players page and the
back-to-back day formatter of api.js), together with theorems settling the
frozen claims about it.
-/

namespace FantasyOpt

/-- JavaScript falsy-or on an optional number: `x || d` evaluates to `d`
when `x` is absent (undefined/null) or `0`, and to `x` otherwise. -/
def jsOr (v : Option ℚ) (d : ℚ) : ℚ :=
  match v with
  | none => d
  | some x => if x = 0 then d else x

/-- A player record as consumed by the players page.  `weekly_projections`
and `per_game_projections` are JSON objects, embedded as association lists;
`per_game_projections` may be absent.  `cat_coverage_rank` is the field the
render step writes onto the object (`player.cat_coverage_rank = totalRank`);
it is absent (`none`) on freshly fetched records. -/
structure Player where
  name : String
  team : String
  availability : String
  positions : String
  games_this_week : ℚ
  weekly_projections : List (String × ℚ)
  per_game_projections : Option (List (String × ℚ))
  cat_coverage_rank : Option ℚ
deriving Repr, DecidableEq

/-- The sort state `{ key, direction }` of the players page. -/
structure SortState where
  key : String
  direction : String
deriving Repr, DecidableEq

/-- JavaScript `String.prototype.includes` with a single-character needle:
the character occurs somewhere in the string. -/
def jsIncludesChar (s : String) (c : Char) : Bool :=
  s.data.contains c

/-- Goalie rank stats summed by `populateTableBody`. -/
def goalieRanksToSum : List String :=
  ["w_cat_rank", "so_cat_rank", "svpct_cat_rank", "gaa_cat_rank"]

/-- Skater rank stats summed by `populateTableBody`. -/
def skaterRanksToSum : List String :=
  ["g_cat_rank", "a_cat_rank", "pts_cat_rank", "ppp_cat_rank",
   "hit_cat_rank", "blk_cat_rank", "sog_cat_rank"]

/-- The coverage-rank computation performed per player inside
`populateTableBody` (players.js lines 103-120): if `per_game_projections`
is absent the total stays 0; otherwise the goalie or skater rank set is
selected by `player.positions.includes('G')` and each
`projections[rankStat] || 0` is accumulated. -/
def computeCoverageRank (p : Player) : ℚ :=
  match p.per_game_projections with
  | none => 0
  | some proj =>
    let ranksToSum :=
      if jsIncludesChar p.positions 'G' then goalieRanksToSum else skaterRanksToSum
    ranksToSum.foldl (fun acc rankStat => acc + jsOr (proj.lookup rankStat) 0) 0

/-- The data side effect of `populateTableBody`: every rendered player
object gets `cat_coverage_rank` set to the freshly computed total rank.
(The HTML row construction itself is outside the model.) -/
def populateTableBody (players : List Player) : List Player :=
  players.map (fun p => { p with cat_coverage_rank := some (computeCoverageRank p) })

/-- Heatmap color generator `getRankColor` (players.js lines 40-47 and the
identical copy in api.js lines 192-200).  `none` models the empty style
string (no color); `some (h, s, l)` models the `hsl(h, s%, l%)` background
style.  Input `none` models `null`/`undefined`. -/
def getRankColor (rank : Option ℚ) : Option (ℚ × ℚ × ℚ) :=
  match rank with
  | none => none
  | some r =>
    if r < 1 ∨ r > 20 then none
    else some (120 - (r - 1) * (120 / 19), 70, 85)

/-- Keys compared as strings by the sort comparator. -/
def stringSortKeys : List String := ["name", "team", "availability", "positions"]

/-- Raw stats for which the comparison is inverted (lower value is better). -/
def inverseSortStats : List String := ["gaa"]

/-- Three-way comparison of two rationals, mirroring the JS
`valA > valB ? 1 : valA < valB ? -1 : 0` pattern. -/
def cmpQ (x y : ℚ) : Int :=
  if x > y then 1 else if x < y then -1 else 0

/-- Three-way comparison of two strings (JS relational operators on
strings compare lexicographically). -/
def cmpS (x y : String) : Int :=
  if x > y then 1 else if x < y then -1 else 0

/-- Dynamic field access `a[key]` for the string-compared columns. -/
def strField (p : Player) (key : String) : String :=
  if key = "name" then p.name
  else if key = "team" then p.team
  else if key = "availability" then p.availability
  else if key = "positions" then p.positions
  else ""

/-- The comparator passed to `allAvailablePlayersData.sort` in
`sortAndRerenderTable` (players.js lines 188-215): `cat_coverage_rank`
compares `a.cat_coverage_rank || 999`; other numeric keys compare
`a.weekly_projections[key] !== undefined ? value : -1`; string keys
compare `a[key] || ''`; the comparison is negated for inverse stats
(`gaa`) and again for descending direction. -/
def sortComparator (key direction : String) (a b : Player) : Int :=
  let isNumeric := !(stringSortKeys.contains key)
  let comparison :=
    if key = "cat_coverage_rank" then
      cmpQ (jsOr a.cat_coverage_rank 999) (jsOr b.cat_coverage_rank 999)
    else if isNumeric then
      cmpQ ((a.weekly_projections.lookup key).getD (-1))
           ((b.weekly_projections.lookup key).getD (-1))
    else
      cmpS (strField a key) (strField b key)
  let comparison :=
    if isNumeric && inverseSortStats.contains key then -comparison else comparison
  if direction = "asc" then comparison else -comparison

/-- Insertion step of a stable comparator sort: `x` is placed before the
first element it does not compare strictly greater than. -/
def insertCmp (cmp : α → α → Int) (x : α) : List α → List α
  | [] => [x]
  | y :: ys => if cmp x y ≤ 0 then x :: y :: ys else y :: insertCmp cmp x ys

/-- Stable sort by a three-way comparator, modelling
`Array.prototype.sort` (stable per ECMAScript 2019). -/
def sortCmp (cmp : α → α → Int) : List α → List α
  | [] => []
  | x :: xs => insertCmp cmp x (sortCmp cmp xs)

/-- `sortAndRerenderTable` (players.js lines 184-218): sorts the stored
player array with the comparator for the current sort state, then renders
it via `populateTableBody`, which (re)computes `cat_coverage_rank` on each
object.  The returned list is the displayed row order with the fields the
render step wrote. -/
def sortAndRerenderTable (st : SortState) (players : List Player) : List Player :=
  populateTableBody (sortCmp (sortComparator st.key st.direction) players)

/-- Modelled from the spec: the spec's invariant says `categoryCoverageRank`
is recomputed from `perGameProjections` BEFORE the rows are sorted and
displayed.  This definition follows those words (recompute, then sort); it
exists only to be compared with the code's `sortAndRerenderTable`. -/
def specSortAndRerender (st : SortState) (players : List Player) : List Player :=
  sortCmp (sortComparator st.key st.direction) (populateTableBody players)

/-- Keys that default to ascending on first click (players.js line 161). -/
def defaultAscKeys : List String :=
  ["cat_coverage_rank", "name", "team", "positions", "availability", "gaa"]

/-- The sort-state transition of the header click handler (players.js
lines 157-174): same key flips the direction, a new key adopts the default
direction for that key. -/
def toggleSort (cur : SortState) (clicked : String) : SortState :=
  let direction :=
    if cur.key = clicked then (if cur.direction = "asc" then "desc" else "asc")
    else (if defaultAscKeys.contains clicked then "asc" else "desc")
  ⟨clicked, direction⟩

/-- Canonical Monday-first week order (api.js line 460). -/
def dayOrder : List String := ["Mon", "Tue", "Wed", "Thu", "Fri", "Sat", "Sun"]

/-- JavaScript `Array.prototype.indexOf`: index of the first occurrence,
`-1` when absent. -/
def jsIndexOf (l : List String) (x : String) : Int :=
  match l.findIdx? (fun y => y = x) with
  | none => -1
  | some i => i

/-- The per-day back-to-back test of `formatBackToBackDays` (api.js lines
464-470): a day is bold iff its canonical predecessor (when the index is
positive) or successor (when the index is below 6) is in the day set. -/
def isBackToBack (daySet : List String) (day : String) : Bool :=
  let dayIndex := jsIndexOf dayOrder day
  let prevDay := if dayIndex > 0 then dayOrder.get? (dayIndex - 1).toNat else none
  let nextDay := if dayIndex < 6 then dayOrder.get? (dayIndex + 1).toNat else none
  (match prevDay with
   | some d => daySet.contains d
   | none => false) ||
  (match nextDay with
   | some d => daySet.contains d
   | none => false)

/-- `formatBackToBackDays` (api.js lines 452-472), on the already-split
day list.  The boolean is `true` where the source wraps the day in `<b>`
tags; inputs with fewer than two days are returned unformatted. -/
def formatBackToBackDays (days : List String) : List (String × Bool) :=
  if days.length < 2 then days.map (fun d => (d, false))
  else days.map (fun d => (d, isBackToBack days d))

/-- Consecutive pairs of the canonical Monday-first week. -/
def canonPairs : List (String × String) := dayOrder.zip dayOrder.tail

/-- Two days are canonically adjacent when one immediately precedes the
other in the Monday-first week order (no wraparound). -/
def canonAdjacent (a b : String) : Bool :=
  canonPairs.any (fun p => (p.1 == a && p.2 == b) || (p.1 == b && p.2 == a))

/-- The sort value the comparator extracts for a given key: the effective
coverage rank for `cat_coverage_rank`, the weekly-projection value (default
`-1`) for other numeric keys, and the string field for string keys. -/
def keyVal (key : String) (p : Player) : ℚ ⊕ String :=
  if key = "cat_coverage_rank" then Sum.inl (jsOr p.cat_coverage_rank 999)
  else if !(stringSortKeys.contains key) then
    Sum.inl ((p.weekly_projections.lookup key).getD (-1))
  else Sum.inr (strField p key)

/-! Helper lemmas. -/

theorem jsOr_lookup_getD (v : Option ℚ) : jsOr v 0 = v.getD 0 := by
  cases v with
  | none => rfl
  | some x =>
    by_cases hx : x = 0 <;> simp [jsOr, hx]

theorem computeCoverageRank_goalie (p : Player) (proj : List (String × ℚ))
    (hp : p.per_game_projections = some proj)
    (hg : jsIncludesChar p.positions 'G' = true) :
    computeCoverageRank p =
      (proj.lookup "w_cat_rank").getD 0 + (proj.lookup "so_cat_rank").getD 0 +
        (proj.lookup "svpct_cat_rank").getD 0 + (proj.lookup "gaa_cat_rank").getD 0 := by
  simp [computeCoverageRank, hp, hg, goalieRanksToSum, jsOr_lookup_getD]

theorem computeCoverageRank_skater (p : Player) (proj : List (String × ℚ))
    (hp : p.per_game_projections = some proj)
    (hg : jsIncludesChar p.positions 'G' = false) :
    computeCoverageRank p =
      (proj.lookup "g_cat_rank").getD 0 + (proj.lookup "a_cat_rank").getD 0 +
        (proj.lookup "pts_cat_rank").getD 0 + (proj.lookup "ppp_cat_rank").getD 0 +
        (proj.lookup "hit_cat_rank").getD 0 + (proj.lookup "blk_cat_rank").getD 0 +
        (proj.lookup "sog_cat_rank").getD 0 := by
  simp [computeCoverageRank, hp, hg, skaterRanksToSum, jsOr_lookup_getD]

theorem computeCoverageRank_set_rank (p : Player) (v : Option ℚ) :
    computeCoverageRank { p with cat_coverage_rank := v } = computeCoverageRank p := rfl

theorem cmpQ_eq_zero_iff (x y : ℚ) : cmpQ x y = 0 ↔ x = y := by
  unfold cmpQ
  rcases lt_trichotomy x y with h | h | h
  · simp [h, not_lt.mpr h.le, h.ne]
  · simp [h]
  · simp [h, not_lt.mpr h.le, h.ne.symm, lt_asymm h]

theorem cmpS_eq_zero_iff (x y : String) : cmpS x y = 0 ↔ x = y := by
  unfold cmpS
  rcases lt_trichotomy x y with h | h | h
  · simp [h, not_lt.mpr h.le, h.ne]
  · simp [h]
  · simp [h, not_lt.mpr h.le, h.ne.symm, lt_asymm h]

/-- The comparator's three-way comparison before the inverse-stat and
direction sign adjustments, for stating lemmas about `sortComparator`. -/
def rawComparison (key : String) (a b : Player) : Int :=
  if key = "cat_coverage_rank" then
    cmpQ (jsOr a.cat_coverage_rank 999) (jsOr b.cat_coverage_rank 999)
  else if !(stringSortKeys.contains key) then
    cmpQ ((a.weekly_projections.lookup key).getD (-1))
         ((b.weekly_projections.lookup key).getD (-1))
  else
    cmpS (strField a key) (strField b key)

theorem neg_ite_int (c : Prop) [Decidable c] (x y : Int) :
    -(if c then x else y) = if c then -x else -y := by
  split <;> rfl

theorem sortComparator_decompose (key direction : String) (a b : Player) :
    sortComparator key direction a b =
      (if direction = "asc" then (1 : Int) else -1) *
        ((if !(stringSortKeys.contains key) && inverseSortStats.contains key
            then (-1 : Int) else 1) *
          rawComparison key a b) := by
  unfold sortComparator rawComparison
  by_cases hd : direction = "asc" <;>
    by_cases hi : key ∉ stringSortKeys ∧ key ∈ inverseSortStats <;>
      simp [hd, hi, one_mul, neg_mul, neg_neg, neg_ite_int]

theorem rawComparison_eq_zero_iff (key : String) (a b : Player) :
    rawComparison key a b = 0 ↔ keyVal key a = keyVal key b := by
  unfold rawComparison keyVal
  by_cases hk : key = "cat_coverage_rank"
  · simp [hk, cmpQ_eq_zero_iff]
  · by_cases hs : key ∈ stringSortKeys
    · simp [hk, hs, cmpS_eq_zero_iff]
    · simp [hk, hs, cmpQ_eq_zero_iff]

theorem sortComparator_eq_zero_iff (key direction : String) (a b : Player) :
    sortComparator key direction a b = 0 ↔ keyVal key a = keyVal key b := by
  rw [sortComparator_decompose, ← rawComparison_eq_zero_iff key a b]
  by_cases hd : direction = "asc" <;>
    by_cases hi : key ∉ stringSortKeys ∧ key ∈ inverseSortStats <;>
      simp [hd, hi, one_mul, neg_mul, neg_eq_zero]

theorem mem_insertCmp (cmp : α → α → Int) (x y : α) (l : List α) :
    y ∈ insertCmp cmp x l ↔ y = x ∨ y ∈ l := by
  induction l with
  | nil => simp [insertCmp]
  | cons z zs ih =>
    by_cases h : cmp x z ≤ 0
    · simp [insertCmp, h]
    · simp [insertCmp, h, ih]
      tauto

theorem insertCmp_of_nonpos (cmp : α → α → Int) (x : α) (l : List α)
    (h : ∀ y ∈ l, cmp x y ≤ 0) : insertCmp cmp x l = x :: l := by
  cases l with
  | nil => rfl
  | cons z zs => simp [insertCmp, h z (by simp)]

theorem mem_sortCmp (cmp : α → α → Int) (y : α) (l : List α) :
    y ∈ sortCmp cmp l ↔ y ∈ l := by
  induction l with
  | nil => simp [sortCmp]
  | cons x xs ih => simp [sortCmp, mem_insertCmp, ih]

theorem sortCmp_of_all_zero (cmp : α → α → Int) (l : List α)
    (h : ∀ a ∈ l, ∀ b ∈ l, cmp a b = 0) : sortCmp cmp l = l := by
  induction l with
  | nil => rfl
  | cons x xs ih =>
    have hxs : sortCmp cmp xs = xs :=
      ih (fun a ha b hb => h a (by simp [ha]) b (by simp [hb]))
    rw [sortCmp, hxs, insertCmp_of_nonpos]
    intro y hy
    rw [h x (by simp) y (by simp [hy])]

theorem filter_insertCmp (cmp : α → α → Int) (k : α → β) [DecidableEq β]
    (hk : ∀ a b, cmp a b = 0 ↔ k a = k b) (x : α) (l : List α) (v : β) :
    (insertCmp cmp x l).filter (fun y => k y = v) =
      if k x = v then x :: l.filter (fun y => k y = v)
      else l.filter (fun y => k y = v) := by
  induction l with
  | nil =>
    simp only [insertCmp, List.filter]
    by_cases hx : k x = v <;> simp [hx]
  | cons z zs ih =>
    by_cases h : cmp x z ≤ 0
    · simp only [insertCmp, if_pos h, List.filter]
      by_cases hx : k x = v <;> simp [hx]
    · simp only [insertCmp, if_neg h, List.filter_cons, ih]
      by_cases hx : k x = v
      · have hz : ¬ k z = v := by
          intro hzv
          exact h (le_of_eq ((hk x z).mpr (hx.trans hzv.symm)))
        simp [hx, hz]
      · simp [hx]

theorem filter_sortCmp (cmp : α → α → Int) (k : α → β) [DecidableEq β]
    (hk : ∀ a b, cmp a b = 0 ↔ k a = k b) (l : List α) (v : β) :
    (sortCmp cmp l).filter (fun y => k y = v) = l.filter (fun y => k y = v) := by
  induction l with
  | nil => rfl
  | cons x xs ih =>
    rw [sortCmp, filter_insertCmp cmp k hk, ih, List.filter_cons]
    by_cases hx : k x = v <;> simp [hx]

theorem any_canonAdjacent_iff (d x y : String)
    (hxy : ∀ e ∈ dayOrder, canonAdjacent d e = true ↔ (e = x ∨ e = y)) :
    ∀ ds : List String, (∀ e ∈ ds, e ∈ dayOrder) →
      ((ds.any fun e => canonAdjacent d e) = true ↔ (x ∈ ds ∨ y ∈ ds)) := by
  intro ds h
  simp only [List.any_eq_true]
  constructor
  · rintro ⟨e, he, hadj⟩
    rcases (hxy e (h e he)).mp hadj with rfl | rfl
    · exact Or.inl he
    · exact Or.inr he
  · rintro (hx | hy)
    · exact ⟨x, hx, (hxy x (h x hx)).mpr (Or.inl rfl)⟩
    · exact ⟨y, hy, (hxy y (h y hy)).mpr (Or.inr rfl)⟩

theorem isBackToBack_eq_any (ds : List String) (h : ∀ e ∈ ds, e ∈ dayOrder)
    (d : String) (hd : d ∈ dayOrder) :
    isBackToBack ds d = (ds.any fun e => canonAdjacent d e) := by
  fin_cases hd
  · rw [Bool.eq_iff_iff,
      any_canonAdjacent_iff "Mon" "Tue" "Tue" (by decide) ds h]
    show ds.contains "Tue" = true ↔ _
    simp
  · rw [Bool.eq_iff_iff,
      any_canonAdjacent_iff "Tue" "Mon" "Wed" (by decide) ds h]
    show (ds.contains "Mon" || ds.contains "Wed") = true ↔ _
    simp
  · rw [Bool.eq_iff_iff,
      any_canonAdjacent_iff "Wed" "Tue" "Thu" (by decide) ds h]
    show (ds.contains "Tue" || ds.contains "Thu") = true ↔ _
    simp
  · rw [Bool.eq_iff_iff,
      any_canonAdjacent_iff "Thu" "Wed" "Fri" (by decide) ds h]
    show (ds.contains "Wed" || ds.contains "Fri") = true ↔ _
    simp
  · rw [Bool.eq_iff_iff,
      any_canonAdjacent_iff "Fri" "Thu" "Sat" (by decide) ds h]
    show (ds.contains "Thu" || ds.contains "Sat") = true ↔ _
    simp
  · rw [Bool.eq_iff_iff,
      any_canonAdjacent_iff "Sat" "Fri" "Sun" (by decide) ds h]
    show (ds.contains "Fri" || ds.contains "Sun") = true ↔ _
    simp
  · rw [Bool.eq_iff_iff,
      any_canonAdjacent_iff "Sun" "Sat" "Sat" (by decide) ds h]
    show (ds.contains "Sat" || false) = true ↔ _
    simp

theorem backToBack_spec (ds : List String) (h : ∀ d ∈ ds, d ∈ dayOrder) :
    formatBackToBackDays ds = ds.map (fun d => (d, ds.any fun e => canonAdjacent d e)) := by
  unfold formatBackToBackDays
  rcases ds with _ | ⟨e, _ | ⟨f, es⟩⟩
  · simp
  · have he := h e (by simp)
    fin_cases he <;> simp <;> decide
  · rw [if_neg (by simp)]
    apply List.map_congr_left
    intro d hd
    exact Prod.ext rfl (isBackToBack_eq_any _ h d (h d hd))

/-- Per-game projections of the example goalie record: the goalie ranks of
the coverage-rank determinism example plus skater ranks that must be ignored. -/
def goalieSampleProj : List (String × ℚ) :=
  [("w_cat_rank", 3), ("so_cat_rank", 5), ("svpct_cat_rank", 2), ("gaa_cat_rank", 1),
   ("g_cat_rank", 7), ("pts_cat_rank", 4)]

/-- Example goalie record of the coverage-rank determinism property. -/
def goalieSample : Player :=
  { name := "Goalie", team := "T", availability := "FA", positions := "G",
    games_this_week := 3, weekly_projections := [],
    per_game_projections := some goalieSampleProj, cat_coverage_rank := none }

/-- Example skater record. -/
def skaterSample : Player :=
  { name := "Skater", team := "T", availability := "FA", positions := "C,LW",
    games_this_week := 3, weekly_projections := [],
    per_game_projections := some [("g_cat_rank", 2), ("a_cat_rank", 4)],
    cat_coverage_rank := none }

/-- Example record with no per-game projections object at all. -/
def noProjSample : Player :=
  { name := "Empty", team := "T", availability := "FA", positions := "D",
    games_this_week := 0, weekly_projections := [],
    per_game_projections := none, cat_coverage_rank := none }

/-- C1: `computeCoverageRank` selects the goalie stat set (w, so, svpct, gaa)
when the positions include the goalie tag and the skater set (g, a, pts, ppp,
hit, blk, sog) otherwise, sums the corresponding `_cat_rank` entries of the
per-game projections treating absent entries as 0 (a wholly absent projection
object yields 0), never fails, and on the example goalie record returns 11,
ignoring the skater-stat ranks that are also present. -/
theorem c1_computeCoverageRank :
    (∀ p : Player, p.per_game_projections = none → computeCoverageRank p = 0) ∧
    (∀ (p : Player) (proj : List (String × ℚ)), p.per_game_projections = some proj →
      jsIncludesChar p.positions 'G' = true →
      computeCoverageRank p =
        (proj.lookup "w_cat_rank").getD 0 + (proj.lookup "so_cat_rank").getD 0 +
          (proj.lookup "svpct_cat_rank").getD 0 + (proj.lookup "gaa_cat_rank").getD 0) ∧
    (∀ (p : Player) (proj : List (String × ℚ)), p.per_game_projections = some proj →
      jsIncludesChar p.positions 'G' = false →
      computeCoverageRank p =
        (proj.lookup "g_cat_rank").getD 0 + (proj.lookup "a_cat_rank").getD 0 +
          (proj.lookup "pts_cat_rank").getD 0 + (proj.lookup "ppp_cat_rank").getD 0 +
          (proj.lookup "hit_cat_rank").getD 0 + (proj.lookup "blk_cat_rank").getD 0 +
          (proj.lookup "sog_cat_rank").getD 0) ∧
    computeCoverageRank goalieSample = 11 := by
  refine ⟨?_, ?_, ?_, ?_⟩
  · intro p h
    simp [computeCoverageRank, h]
  · exact computeCoverageRank_goalie
  · exact computeCoverageRank_skater
  · rw [computeCoverageRank_goalie goalieSample goalieSampleProj rfl (by decide)]
    have w1 : ((goalieSampleProj.lookup "w_cat_rank").getD 0 : ℚ) = 3 := by decide
    have w2 : ((goalieSampleProj.lookup "so_cat_rank").getD 0 : ℚ) = 5 := by decide
    have w3 : ((goalieSampleProj.lookup "svpct_cat_rank").getD 0 : ℚ) = 2 := by decide
    have w4 : ((goalieSampleProj.lookup "gaa_cat_rank").getD 0 : ℚ) = 1 := by decide
    rw [w1, w2, w3, w4]
    norm_num

/-- Closed witness for C1: the hypotheses of the conditional parts hold at
the example records. -/
theorem c1_witness :
    computeCoverageRank noProjSample = 0 ∧
    computeCoverageRank skaterSample =
      ((skaterSample.per_game_projections.getD []).lookup "g_cat_rank").getD 0 +
        ((skaterSample.per_game_projections.getD []).lookup "a_cat_rank").getD 0 +
        ((skaterSample.per_game_projections.getD []).lookup "pts_cat_rank").getD 0 +
        ((skaterSample.per_game_projections.getD []).lookup "ppp_cat_rank").getD 0 +
        ((skaterSample.per_game_projections.getD []).lookup "hit_cat_rank").getD 0 +
        ((skaterSample.per_game_projections.getD []).lookup "blk_cat_rank").getD 0 +
        ((skaterSample.per_game_projections.getD []).lookup "sog_cat_rank").getD 0 :=
  ⟨c1_computeCoverageRank.1 noProjSample rfl,
   c1_computeCoverageRank.2.2.1 skaterSample _ rfl (by decide)⟩

/-- C4: `toggleSort` flips the direction when the clicked key equals the
current key, and otherwise adopts the clicked key with the direction from the
fixed default table (cat_coverage_rank, name, team, positions, availability
and gaa default to ascending, every other key to descending); clicking pts
from (name, asc) gives (pts, desc), and clicking pts again gives (pts, asc). -/
theorem c4_toggleSort :
    (∀ (cur : SortState) (k : String), k = cur.key →
      toggleSort cur k = ⟨k, if cur.direction = "asc" then "desc" else "asc"⟩) ∧
    (∀ (cur : SortState) (k : String), k ≠ cur.key →
      toggleSort cur k =
        ⟨k, if k ∈ ["cat_coverage_rank", "name", "team", "positions", "availability", "gaa"]
            then "asc" else "desc"⟩) ∧
    toggleSort ⟨"name", "asc"⟩ "pts" = ⟨"pts", "desc"⟩ ∧
    toggleSort ⟨"pts", "desc"⟩ "pts" = ⟨"pts", "asc"⟩ := by
  refine ⟨?_, ?_, by decide, by decide⟩
  · intro cur k hk
    subst hk
    simp [toggleSort]
  · intro cur k hk
    have hne : ¬ cur.key = k := fun h => hk h.symm
    simp [toggleSort, hne, defaultAscKeys]

/-- Closed witness for C4: both conditional parts instantiated. -/
theorem c4_witness :
    toggleSort ⟨"pts", "desc"⟩ "pts" =
      ⟨"pts", if ("desc" : String) = "asc" then "desc" else "asc"⟩ ∧
    toggleSort ⟨"name", "asc"⟩ "pts" =
      ⟨"pts", if ("pts" : String) ∈
          ["cat_coverage_rank", "name", "team", "positions", "availability", "gaa"]
        then "asc" else "desc"⟩ :=
  ⟨c4_toggleSort.1 ⟨"pts", "desc"⟩ "pts" rfl,
   c4_toggleSort.2.1 ⟨"name", "asc"⟩ "pts" (by decide)⟩

/-- C5: `getRankColor` returns no color for every input outside the valid
domain 1 .. 20 (including the null/undefined input), and on the valid domain
returns hue 120 - (rank - 1) * (120 / 19) with saturation 70 and lightness
85; rank 1 gives hue 120, rank 20 gives hue 0, and ranks 0 and 21 and the
null input give no color. -/
theorem c5_getRankColor :
    (∀ r : ℚ, 1 ≤ r ∧ r ≤ 20 →
      getRankColor (some r) = some (120 - (r - 1) * (120 / 19), 70, 85)) ∧
    (∀ r : ℚ, r < 1 ∨ r > 20 → getRankColor (some r) = none) ∧
    getRankColor none = none ∧
    getRankColor (some 1) = some (120, 70, 85) ∧
    getRankColor (some 20) = some (0, 70, 85) ∧
    getRankColor (some 0) = none ∧
    getRankColor (some 21) = none := by
  refine ⟨?_, ?_, rfl, by norm_num [getRankColor], by norm_num [getRankColor],
    by norm_num [getRankColor], by norm_num [getRankColor]⟩
  · intro r hr
    have hcond : ¬ (r < 1 ∨ r > 20) := by
      push_neg
      exact ⟨not_lt.mp (by exact not_lt.mpr hr.1), hr.2⟩
    simp [getRankColor, hcond]
  · intro r hr
    simp [getRankColor, hr]

/-- Closed witness for C5: the two conditional parts instantiated at 10
and 25. -/
theorem c5_witness :
    getRankColor (some 10) = some (120 - ((10 : ℚ) - 1) * (120 / 19), 70, 85) ∧
    getRankColor (some 25) = none :=
  ⟨c5_getRankColor.1 10 (by norm_num), c5_getRankColor.2.1 25 (by norm_num)⟩

/-- C7: for every numeric sort key the comparator is the direction-adjusted
three-way comparison of the weekly-projection values (default -1), with the
sign inverted exactly when the key is gaa: lower raw GAA compares as better,
and no other numeric key is inverted. -/
theorem c7_gaa_inverted (direction : String) (a b : Player) (k : String)
    (hs : k ∉ stringSortKeys) (hk : k ≠ "cat_coverage_rank") :
    sortComparator k direction a b =
      (if direction = "asc" then (1 : Int) else -1) *
        ((if k = "gaa" then (-1 : Int) else 1) *
          cmpQ ((a.weekly_projections.lookup k).getD (-1))
               ((b.weekly_projections.lookup k).getD (-1))) := by
  rw [sortComparator_decompose]
  have h1 : rawComparison k a b =
      cmpQ ((a.weekly_projections.lookup k).getD (-1))
           ((b.weekly_projections.lookup k).getD (-1)) := by
    simp [rawComparison, hk, hs]
  rw [h1]
  by_cases hg : k = "gaa"
  · subst hg
    have hgs : ("gaa" : String) ∉ stringSortKeys := by decide
    simp [inverseSortStats, hgs]
  · simp [hg, inverseSortStats, hs]

/-- Row with no gaa entry in its weekly projections. -/
def rowNoGaa : Player :=
  { name := "A", team := "T", availability := "FA", positions := "G",
    games_this_week := 0, weekly_projections := [],
    per_game_projections := none, cat_coverage_rank := none }

/-- Row with gaa 3 (and w 2) in its weekly projections. -/
def rowGaa3 : Player :=
  { name := "B", team := "T", availability := "FA", positions := "G",
    games_this_week := 0, weekly_projections := [("gaa", 3), ("w", 2)],
    per_game_projections := none, cat_coverage_rank := none }

/-- Closed witness for C7: the gaa comparison is inverted, an ordinary
numeric key is not. -/
theorem c7_witness :
    sortComparator "gaa" "desc" rowGaa3 rowNoGaa =
      (if ("desc" : String) = "asc" then (1 : Int) else -1) *
        ((if ("gaa" : String) = "gaa" then (-1 : Int) else 1) *
          cmpQ ((rowGaa3.weekly_projections.lookup "gaa").getD (-1))
               ((rowNoGaa.weekly_projections.lookup "gaa").getD (-1))) ∧
    sortComparator "w" "asc" rowGaa3 rowNoGaa =
      (if ("asc" : String) = "asc" then (1 : Int) else -1) *
        ((if ("w" : String) = "gaa" then (-1 : Int) else 1) *
          cmpQ ((rowGaa3.weekly_projections.lookup "w").getD (-1))
               ((rowNoGaa.weekly_projections.lookup "w").getD (-1))) :=
  ⟨c7_gaa_inverted "desc" rowGaa3 rowNoGaa "gaa" (by decide) (by decide),
   c7_gaa_inverted "asc" rowGaa3 rowNoGaa "w" (by decide) (by decide)⟩

/-- C3 counterexample: the claim says a missing numeric stat value, compared
as -1, sorts LAST in descending order for every SortState; but for the
inverse-sorted key gaa in descending direction the missing-value row compares
as -1 (sorts first): the comparator returns -1 and the stable sort puts the
row without a gaa value first. -/
theorem c3_counterexample :
    sortComparator "gaa" "desc" rowNoGaa rowGaa3 = -1 ∧
    sortCmp (sortComparator "gaa" "desc") [rowGaa3, rowNoGaa] = [rowNoGaa, rowGaa3] := by
  constructor
  · decide
  · decide

/-- C3 (amended): the comparator never fails and substitutes sentinel values
for absent entries: a missing cat_coverage_rank is compared exactly as the
value 999 (so it sorts last in ascending coverage-rank order, given the other
rank is strictly between 0 and 999), and a missing numeric stat is compared
exactly as the value -1 (so for every numeric key except the inverse-sorted
gaa it sorts last in descending and first in ascending order against present
values above -1; for gaa the inversion places it first in descending and last
in ascending order). -/
theorem c3_amended :
    (∀ (direction : String) (a b : Player), a.cat_coverage_rank = none →
      sortComparator "cat_coverage_rank" direction a b =
        sortComparator "cat_coverage_rank" direction
          { a with cat_coverage_rank := some 999 } b) ∧
    (∀ (direction : String) (a b : Player), b.cat_coverage_rank = none →
      sortComparator "cat_coverage_rank" direction a b =
        sortComparator "cat_coverage_rank" direction a
          { b with cat_coverage_rank := some 999 }) ∧
    (∀ (a b : Player) (r : ℚ), a.cat_coverage_rank = none →
      b.cat_coverage_rank = some r → 0 < r → r < 999 →
      sortComparator "cat_coverage_rank" "asc" a b = 1) ∧
    (∀ (k direction : String) (a b : Player), k ∉ stringSortKeys →
      a.weekly_projections.lookup k = none →
      sortComparator k direction a b =
        sortComparator k direction
          { a with weekly_projections := (k, -1) :: a.weekly_projections } b) ∧
    (∀ (k : String) (a b : Player) (v : ℚ), k ∉ stringSortKeys →
      k ≠ "cat_coverage_rank" → k ∉ inverseSortStats →
      a.weekly_projections.lookup k = none →
      b.weekly_projections.lookup k = some v → -1 < v →
      sortComparator k "desc" a b = 1 ∧ sortComparator k "asc" a b = -1) ∧
    (∀ (a b : Player) (v : ℚ),
      a.weekly_projections.lookup "gaa" = none →
      b.weekly_projections.lookup "gaa" = some v → -1 < v →
      sortComparator "gaa" "desc" a b = -1 ∧ sortComparator "gaa" "asc" a b = 1) := by
  have hq : ∀ v : ℚ, -1 < v → cmpQ (-1) v = -1 := by
    intro v hv
    simp [cmpQ, hv, not_lt.mpr hv.le, (lt_iff_le_and_ne.mp hv).2]
  refine ⟨?_, ?_, ?_, ?_, ?_, ?_⟩
  · intro direction a b h
    simp [sortComparator, h, jsOr]
  · intro direction a b h
    simp [sortComparator, h, jsOr]
  · intro a b r ha hb hr0 hr999
    have hgs : ("cat_coverage_rank" : String) ∉ stringSortKeys := by decide
    have hgi : ("cat_coverage_rank" : String) ∉ inverseSortStats := by decide
    simp [sortComparator, ha, hb, jsOr, ne_of_gt hr0, cmpQ, hr999, hgs, hgi]
  · intro k direction a b hs hl
    by_cases hk : k = "cat_coverage_rank"
    · simp [sortComparator, hk]
    · simp [sortComparator, hk, hs, hl]
  · intro k a b v hs hk hi hla hlb hv
    rw [c7_gaa_inverted "desc" a b k hs hk, c7_gaa_inverted "asc" a b k hs hk]
    have hkg : k ≠ "gaa" := by
      intro h
      exact hi (by simp [h, inverseSortStats])
    simp [hkg, hla, hlb, hq v hv]
  · intro a b v hla hlb hv
    have hgs : ("gaa" : String) ∉ stringSortKeys := by decide
    rw [c7_gaa_inverted "desc" a b "gaa" hgs (by decide),
      c7_gaa_inverted "asc" a b "gaa" hgs (by decide)]
    simp [hla, hlb, hq v hv]

/-- Row with a present cat_coverage_rank of 5. -/
def rowRank5 : Player :=
  { name := "C", team := "T", availability := "FA", positions := "C",
    games_this_week := 0, weekly_projections := [],
    per_game_projections := none, cat_coverage_rank := some 5 }

/-- Closed witness for C3 (amended): each conditional part instantiated. -/
theorem c3_witness :
    sortComparator "cat_coverage_rank" "asc" rowNoGaa rowRank5 =
      sortComparator "cat_coverage_rank" "asc"
        { rowNoGaa with cat_coverage_rank := some 999 } rowRank5 ∧
    sortComparator "cat_coverage_rank" "asc" rowRank5 rowNoGaa =
      sortComparator "cat_coverage_rank" "asc" rowRank5
        { rowNoGaa with cat_coverage_rank := some 999 } ∧
    sortComparator "cat_coverage_rank" "asc" rowNoGaa rowRank5 = 1 ∧
    sortComparator "w" "asc" rowNoGaa rowGaa3 =
      sortComparator "w" "asc"
        { rowNoGaa with weekly_projections := ("w", -1) :: rowNoGaa.weekly_projections }
        rowGaa3 ∧
    (sortComparator "w" "desc" rowNoGaa rowGaa3 = 1 ∧
      sortComparator "w" "asc" rowNoGaa rowGaa3 = -1) ∧
    (sortComparator "gaa" "desc" rowNoGaa rowGaa3 = -1 ∧
      sortComparator "gaa" "asc" rowNoGaa rowGaa3 = 1) :=
  ⟨c3_amended.1 "asc" rowNoGaa rowRank5 rfl,
   c3_amended.2.1 "asc" rowRank5 rowNoGaa rfl,
   c3_amended.2.2.1 rowNoGaa rowRank5 5 rfl rfl (by norm_num) (by norm_num),
   c3_amended.2.2.2.1 "w" "asc" rowNoGaa rowGaa3 (by decide) rfl,
   c3_amended.2.2.2.2.1 "w" rowNoGaa rowGaa3 2 (by decide) (by decide) (by decide)
     rfl (by decide) (by norm_num),
   c3_amended.2.2.2.2.2 rowNoGaa rowGaa3 3 rfl (by decide) (by norm_num)⟩

/-- C9: a computed coverage rank of 0 (for example from an absent per-game
projections object) is indistinguishable from an absent rank in the sort:
the comparator's falsy-or fallback compares the stored value 0 as 999, so
such a player sorts after any player whose rank is strictly between 0 and
999 in ascending coverage-rank order. -/
theorem c9_zero_rank_compares_as_999 :
    ∀ (p b : Player) (direction : String) (r : ℚ),
      computeCoverageRank p = 0 →
      b.cat_coverage_rank = some r → 0 < r → r < 999 →
      (sortComparator "cat_coverage_rank" direction
          { p with cat_coverage_rank := some (computeCoverageRank p) } b =
        sortComparator "cat_coverage_rank" direction
          { p with cat_coverage_rank := none } b) ∧
      sortComparator "cat_coverage_rank" "asc"
          { p with cat_coverage_rank := some (computeCoverageRank p) } b = 1 := by
  intro p b direction r hp hb hr0 hr999
  constructor
  · simp [sortComparator, hp, jsOr]
  · have hgs : ("cat_coverage_rank" : String) ∉ stringSortKeys := by decide
    have hgi : ("cat_coverage_rank" : String) ∉ inverseSortStats := by decide
    simp [sortComparator, hp, hb, jsOr, ne_of_gt hr0, cmpQ, hr999, hgs, hgi]

/-- Closed witness for C9: the record without projections has computed
coverage rank 0 yet sorts after the rank-5 player in ascending order. -/
theorem c9_witness :
    (sortComparator "cat_coverage_rank" "asc"
        { noProjSample with cat_coverage_rank := some (computeCoverageRank noProjSample) }
        rowRank5 =
      sortComparator "cat_coverage_rank" "asc"
        { noProjSample with cat_coverage_rank := none } rowRank5) ∧
    sortComparator "cat_coverage_rank" "asc"
        { noProjSample with cat_coverage_rank := some (computeCoverageRank noProjSample) }
        rowRank5 = 1 :=
  c9_zero_rank_compares_as_999 noProjSample rowRank5 "asc" 5 rfl rfl
    (by norm_num) (by norm_num)

/-- C10: sorting by the games_this_week key looks the key up in
weekly_projections, not in the top-level games_this_week field; when no
player's weekly projections contain such an entry both sides default to -1,
every comparison ties, and the stable sort leaves the order unchanged. -/
theorem c10_games_sort_identity :
    ∀ (direction : String) (l : List Player),
      (∀ p ∈ l, p.weekly_projections.lookup "games_this_week" = none) →
      sortCmp (sortComparator "games_this_week" direction) l = l := by
  intro direction l h
  apply sortCmp_of_all_zero
  intro a ha b hb
  rw [sortComparator_decompose]
  have hz : rawComparison "games_this_week" a b = 0 := by
    have hgs : ("games_this_week" : String) ∉ stringSortKeys := by decide
    simp [rawComparison, hgs, h a ha, h b hb, cmpQ]
  rw [hz]
  simp

/-- Closed witness for C10: a two-element list with nonzero top-level game
counts but no games_this_week entries is left in fetch order. -/
theorem c10_witness :
    sortCmp (sortComparator "games_this_week" "desc") [rowGaa3, rowNoGaa] =
      [rowGaa3, rowNoGaa] :=
  c10_games_sort_identity "desc" [rowGaa3, rowNoGaa] (by decide)

/-- Per-game projections of the high-rank example goalie. -/
def gHighProj : List (String × ℚ) := [("w_cat_rank", 30), ("so_cat_rank", 20)]

/-- Freshly fetched goalie whose coverage rank computes to 50. -/
def gHigh : Player :=
  { name := "High", team := "T", availability := "FA", positions := "G",
    games_this_week := 0, weekly_projections := [],
    per_game_projections := some gHighProj, cat_coverage_rank := none }

/-- Per-game projections of the low-rank example goalie. -/
def gLowProj : List (String × ℚ) :=
  [("w_cat_rank", 3), ("so_cat_rank", 5), ("svpct_cat_rank", 2), ("gaa_cat_rank", 1)]

/-- Freshly fetched goalie whose coverage rank computes to 11. -/
def gLow : Player :=
  { name := "Low", team := "T", availability := "FA", positions := "G",
    games_this_week := 0, weekly_projections := [],
    per_game_projections := some gLowProj, cat_coverage_rank := none }

theorem computeCoverageRank_gHigh : computeCoverageRank gHigh = 50 := by
  rw [computeCoverageRank_goalie gHigh gHighProj rfl (by decide)]
  have w1 : ((gHighProj.lookup "w_cat_rank").getD 0 : ℚ) = 30 := by decide
  have w2 : ((gHighProj.lookup "so_cat_rank").getD 0 : ℚ) = 20 := by decide
  have w3 : ((gHighProj.lookup "svpct_cat_rank").getD 0 : ℚ) = 0 := by decide
  have w4 : ((gHighProj.lookup "gaa_cat_rank").getD 0 : ℚ) = 0 := by decide
  rw [w1, w2, w3, w4]
  norm_num

theorem computeCoverageRank_gLow : computeCoverageRank gLow = 11 := by
  rw [computeCoverageRank_goalie gLow gLowProj rfl (by decide)]
  have w1 : ((gLowProj.lookup "w_cat_rank").getD 0 : ℚ) = 3 := by decide
  have w2 : ((gLowProj.lookup "so_cat_rank").getD 0 : ℚ) = 5 := by decide
  have w3 : ((gLowProj.lookup "svpct_cat_rank").getD 0 : ℚ) = 2 := by decide
  have w4 : ((gLowProj.lookup "gaa_cat_rank").getD 0 : ℚ) = 1 := by decide
  rw [w1, w2, w3, w4]
  norm_num

/-- C2 counterexample: on freshly fetched data (no cat_coverage_rank fields
yet) the page's render path sorts BEFORE the ranks are computed, so the
default coverage-rank sort leaves the worse goalie (rank 50) displayed ahead
of the better one (rank 11); recomputing before sorting, as the spec's
invariant describes, would display them the other way around. -/
theorem c2_counterexample :
    sortAndRerenderTable ⟨"cat_coverage_rank", "asc"⟩ [gHigh, gLow] ≠
      specSortAndRerender ⟨"cat_coverage_rank", "asc"⟩ [gHigh, gLow] := by
  have hL : sortAndRerenderTable ⟨"cat_coverage_rank", "asc"⟩ [gHigh, gLow] =
      [{ gHigh with cat_coverage_rank := some 50 },
       { gLow with cat_coverage_rank := some 11 }] := by
    have hsort : sortCmp (sortComparator "cat_coverage_rank" "asc") [gHigh, gLow] =
        [gHigh, gLow] := by decide
    rw [sortAndRerenderTable, hsort]
    simp [populateTableBody, computeCoverageRank_gHigh, computeCoverageRank_gLow]
  have hR : specSortAndRerender ⟨"cat_coverage_rank", "asc"⟩ [gHigh, gLow] =
      [{ gLow with cat_coverage_rank := some 11 },
       { gHigh with cat_coverage_rank := some 50 }] := by
    have hpop : populateTableBody [gHigh, gLow] =
        [{ gHigh with cat_coverage_rank := some 50 },
         { gLow with cat_coverage_rank := some 11 }] := by
      simp [populateTableBody, computeCoverageRank_gHigh, computeCoverageRank_gLow]
    rw [specSortAndRerender, hpop]
    decide
  rw [hL, hR]
  decide

/-- C2 (amended): the coverage rank is recomputed from the per-game
projections on every render, but only after sorting: every displayed row
carries the rank freshly computed from its own record, while the sort that
produced the order reads the previously stored field; in particular the
first sort after a data fetch reads only absent ranks (all compared as 999),
so it displays the fetched order unchanged. -/
theorem c2_amended :
    (∀ (st : SortState) (l : List Player) (p : Player),
      p ∈ sortAndRerenderTable st l →
      p.cat_coverage_rank = some (computeCoverageRank p)) ∧
    (∀ (direction : String) (l : List Player),
      (∀ p ∈ l, p.cat_coverage_rank = none) →
      sortAndRerenderTable ⟨"cat_coverage_rank", direction⟩ l = populateTableBody l) := by
  constructor
  · intro st l p hp
    rw [sortAndRerenderTable, populateTableBody] at hp
    rcases List.mem_map.mp hp with ⟨q, _, rfl⟩
    exact congrArg some
      (computeCoverageRank_set_rank q (some (computeCoverageRank q))).symm
  · intro direction l h
    rw [sortAndRerenderTable]
    rw [sortCmp_of_all_zero]
    intro a ha b hb
    rw [sortComparator_decompose]
    have hz : rawComparison "cat_coverage_rank" a b = 0 := by
      simp [rawComparison, h a ha, h b hb, jsOr, cmpQ]
    rw [hz]
    simp

/-- Closed witness for C2 (amended): a rendered row carries its own freshly
computed rank, and the first post-fetch sort is the identity on fetch order. -/
theorem c2_witness :
    ({ noProjSample with cat_coverage_rank := some 0 } : Player).cat_coverage_rank =
      some (computeCoverageRank { noProjSample with cat_coverage_rank := some 0 }) ∧
    sortAndRerenderTable ⟨"cat_coverage_rank", "asc"⟩ [gHigh, gLow] =
      populateTableBody [gHigh, gLow] :=
  ⟨c2_amended.1 ⟨"cat_coverage_rank", "asc"⟩ [noProjSample]
      { noProjSample with cat_coverage_rank := some 0 } (by decide),
   c2_amended.2 "asc" [gHigh, gLow] (by decide)⟩

/-- C8: the sort is stable.  The comparator ties exactly on rows whose
extracted sort value coincides, and restricting the sorted list to the rows
carrying any fixed sort value returns exactly the corresponding sublist of
the input, in input order. -/
theorem c8_sort_stable :
    ∀ (st : SortState) (l : List Player),
      (∀ a b : Player, sortComparator st.key st.direction a b = 0 ↔
        keyVal st.key a = keyVal st.key b) ∧
      (∀ v : ℚ ⊕ String,
        (sortCmp (sortComparator st.key st.direction) l).filter
            (fun p => keyVal st.key p = v) =
          l.filter (fun p => keyVal st.key p = v)) :=
  fun st l =>
    ⟨fun a b => sortComparator_eq_zero_iff st.key st.direction a b,
     fun v => filter_sortCmp _ _ (sortComparator_eq_zero_iff st.key st.direction) l v⟩

/-- C6: a day is emphasized by the back-to-back formatter exactly when a
canonically adjacent day (Monday-first order, no wraparound) is also present
in the input; Sun+Mon emphasizes nothing, and Mon+Tue+Fri emphasizes Mon and
Tue but not Fri. -/
theorem c6_markBackToBack :
    (∀ ds : List String, (∀ d ∈ ds, d ∈ dayOrder) →
      formatBackToBackDays ds =
        ds.map (fun d => (d, ds.any fun e => canonAdjacent d e))) ∧
    formatBackToBackDays ["Sun", "Mon"] = [("Sun", false), ("Mon", false)] ∧
    formatBackToBackDays ["Mon", "Tue", "Fri"] =
      [("Mon", true), ("Tue", true), ("Fri", false)] :=
  ⟨backToBack_spec, by decide, by decide⟩

/-- Closed witness for C6: the characterization instantiated on the
Sun+Mon input, whose days are all valid. -/
theorem c6_witness :
    formatBackToBackDays ["Sun", "Mon"] =
      ["Sun", "Mon"].map (fun d => (d, ["Sun", "Mon"].any fun e => canonAdjacent d e)) :=
  c6_markBackToBack.1 ["Sun", "Mon"] (by decide)

end FantasyOpt
